import Mathlib

set_option linter.unusedVariables false

/-!
Shallow embedding of `src/mediaflow_proxy/mpd_processor.py` (an MPD→HLS
translation engine) and proofs about its claims.

Modelling conventions:
* Python byte strings are `List Nat`; string dictionaries are association
  lists with Python `dict` update semantics (replace in place, else append).
* Python `float` durations (`extinf`) are modelled as exact rationals; the
  claims under study never depend on binary floating-point artifacts.
* Fallible dictionary access (`d["k"]` raising `KeyError`) is modelled with
  `Option` fields and `Except Unit` results.
* The external collaborators (URL codec `encode_mediaflow_proxy_url`, DRM
  decryptor `decrypt_segment`) are parameters of the embedded functions.
* `logger.warning` calls in `build_hls_playlist` are modelled as an extra
  returned list of warning strings; `logger.info` timing/count logs are not
  modelled (purely observational).
-/

namespace MediaProxy

/-! ### Data model (spec §3, parsed-MPD dictionaries) -/

/-- One segment dictionary: `extinf`, `media`, and the optional addressing
fields `number`, `time`, `duration_mpd_timescale`. -/
structure Segment where
  extinf : Option Rat
  media : String
  number : Option Int
  time : Option Int
  durationMpdTimescale : Option Int
deriving DecidableEq

/-- One profile dictionary. `id`, `mimeType`, `initUrl`, `segments` are
accessed with raising `[]` lookups on every path the claims exercise, so they
are modelled as total fields; the video-tag fields and `lang` are modelled as
optional because the code reaches them via raising lookups (`Except`) or
`.get` with a default. -/
structure Profile where
  id : String
  mimeType : String
  bandwidth : Option Int
  width : Option Int
  height : Option Int
  codecs : Option String
  frameRate : Option String
  lang : Option String
  initUrl : String
  segments : List Segment
  segmentTemplateStartNumber : Option Int
deriving DecidableEq

/-- The parsed MPD dictionary (`mpd_dict`): live flag plus ordered profiles. -/
structure Manifest where
  isLive : Bool
  profiles : List Profile
deriving DecidableEq

/-- The request context: current query parameters plus the two resolved
endpoint base URLs (`request.url_for(...)` with the original scheme). -/
structure ReqCtx where
  queryParams : List (String × String)
  playlistUrl : String
  segmentUrl : String
deriving DecidableEq

/-! ### Association lists with Python dict semantics -/

/-- `d.get(k, default)`. -/
def lookupD (ps : List (String × String)) (k d : String) : String :=
  match ps.find? (fun kv => kv.1 == k) with
  | some kv => kv.2
  | none => d

/-- `d.pop(k, ...)`, the removal part. -/
def eraseKey (ps : List (String × String)) (k : String) : List (String × String) :=
  ps.filter (fun kv => kv.1 != k)

/-- `d[k] = v` / `d.update({k: v})`: replace in place when the key exists,
append otherwise (Python 3.7+ insertion-order semantics). -/
def insertD {α : Type} (ps : List (String × α)) (k : String) (v : α) : List (String × α) :=
  if ps.any (fun kv => kv.1 == k) then ps.map (fun kv => if kv.1 == k then (k, v) else kv)
  else ps ++ [(k, v)]

/-- Python `pat in s` substring test. -/
def strContainsSub (s pat : String) : Bool :=
  go s.data
where
  go : List Char → Bool
  | [] => List.isPrefixOf pat.data []
  | c :: cs => List.isPrefixOf pat.data (c :: cs) || go cs

/-! ### Segment delivery dispatcher (`process_segment`, lines 56–79) -/

/-- Python truthiness of an optional string (`None` and `""` are falsy). -/
def truthyStr : Option String → Bool
  | none => false
  | some s => s != ""

/-- `process_segment`: decrypt when both `key_id` and `key` are truthy,
otherwise concatenate `init_content ++ segment_content` (the `BytesIO`
write/write/getvalue sequence).  The external decryptor is a parameter; its
failure (the `Except` error) propagates.  `mimetype` only feeds a log line in
the source, so it is unused on the data path. -/
def process_segment {ε : Type} (decrypt : List Nat → List Nat → String → String → Except ε (List Nat))
    (init_content segment_content : List Nat) (mimetype : String)
    (key_id key : Option String) : Except ε (List Nat) :=
  if truthyStr key_id && truthyStr key then
    decrypt init_content segment_content (key_id.getD "") (key.getD "")
  else
    .ok (init_content ++ segment_content)

/-! ### Sequence derivation (`build_hls_playlist`, lines 146–163) -/

/-- Python `mpd_start_number and mpd_start_number >= 1000` on an optional
integer (`None` and `0` are falsy). -/
def truthyGe1000 : Option Int → Bool
  | none => false
  | some n => n != 0 && decide (1000 ≤ n)

/-- Python `duration_val and duration_val > 0` on an optional integer. -/
def durTruthyPos : Option Int → Bool
  | none => false
  | some d => d != 0 && decide (0 < d)

/-- Guard of the time/timescale branch:
`time_val is not None and duration_val and duration_val > 0`. -/
def timeDurApplies (s : Segment) : Bool :=
  s.time.isSome && durTruthyPos s.durationMpdTimescale

/-- The media-sequence derivation of lines 150–163.  `math.floor(t / d)` on
exact values is floor division `Int.fdiv`; Python `%` with a positive modulus
agrees with `Int.emod`.  The `getD` defaults inside the guarded branches are
unreachable (the guards ensure presence). -/
def deriveSequence (isLive : Bool) (startNum : Option Int) (first : Segment) : Int :=
  if truthyGe1000 startNum then
    first.number.getD (startNum.getD 0)
  else if timeDurApplies first then
    let q := Int.fdiv (first.time.getD 0) (first.durationMpdTimescale.getD 0)
    if isLive && decide (100000 < q) then q % 100000 else q
  else
    first.number.getD 1

/-- `math.ceil(max(extinf_values)) if extinf_values else 3` (lines 147–148);
the comprehension keeps only segments that carry an `extinf`. -/
def targetDuration (segments : List Segment) : Int :=
  match segments.filterMap (fun s => s.extinf) with
  | [] => 3
  | v :: vs => Rat.ceil (vs.foldl max v)

/-! ### HLS playlist lines

The Python code appends fully formatted strings to a list `hls` and joins
them with newlines.  The embedding first builds structured lines mirroring
each `hls.append` exactly, and `renderLine` produces the very string the
Python f-string would; claims about tags are stated on the structured lines,
claims about the final text on the rendered join. -/

inductive HlsLine where
  | extm3u : HlsLine
  | version : HlsLine
  | targetDur (n : Int) : HlsLine
  | mediaSeq (n : Int) : HlsLine
  | playlistType (live : Bool) : HlsLine
  | extinf (d : Rat) : HlsLine
  | url (u : String) : HlsLine
  | endList : HlsLine
  | media (name lang uri : String) (isDefault : Bool) : HlsLine
  | streamInf (bw w h : Int) (codecs fr : String) (withAudio : Bool) : HlsLine
deriving DecidableEq

/-- Zero-pad a remainder below 1000 to three digits. -/
def pad3 (n : Int) : String :=
  if n < 10 then "00" ++ toString n
  else if n < 100 then "0" ++ toString n
  else toString n

/-- Python `f"{x:.3f}"` (round half to even), evaluated on the exact rational
standing in for the float.  No claim under study inspects this text. -/
def fmt3 (q : Rat) : String :=
  let a := |q| * 1000
  let fl : Int := Rat.floor a
  let frac : Rat := a - (fl : Rat)
  let r : Int :=
    if frac > 1 / 2 then fl + 1
    else if frac < 1 / 2 then fl
    else if fl % 2 = 0 then fl else fl + 1
  (if q < 0 then "-" else "") ++ toString (r / 1000) ++ "." ++ pad3 (r % 1000)

/-- `"YES"` / `"NO"` as in the `is_default` expression of line 112. -/
def yn (b : Bool) : String := if b then "YES" else "NO"

/-- Render one structured line to the exact string the source appends. -/
def renderLine : HlsLine → String
  | .extm3u => "#EXTM3U"
  | .version => "#EXT-X-VERSION:6"
  | .targetDur n => "#EXT-X-TARGETDURATION:" ++ toString n
  | .mediaSeq n => "#EXT-X-MEDIA-SEQUENCE:" ++ toString n
  | .playlistType live =>
      if live then "#EXT-X-PLAYLIST-TYPE:LIVE" else "#EXT-X-PLAYLIST-TYPE:VOD"
  | .extinf d => "#EXTINF:" ++ fmt3 d ++ ","
  | .url u => u
  | .endList => "#EXT-X-ENDLIST"
  | .media name lang uri isDefault =>
      "#EXT-X-MEDIA:TYPE=AUDIO,GROUP-ID=\"audio\",NAME=\"" ++ name ++
        "\",DEFAULT=" ++ yn isDefault ++ ",AUTOSELECT=" ++ yn isDefault ++
        ",LANGUAGE=\"" ++ lang ++ "\",URI=\"" ++ uri ++ "\""
  | .streamInf bw w h codecs fr withAudio =>
      "#EXT-X-STREAM-INF:BANDWIDTH=" ++ toString bw ++ ",RESOLUTION=" ++
        toString w ++ "x" ++ toString h ++ ",CODECS=\"" ++ codecs ++
        "\",FRAME-RATE=" ++ fr ++ (if withAudio then ",AUDIO=\"audio\"" else "")

/-! ### Master playlist builder (`build_hls`, lines 82–125)

The URL codec `encode_mediaflow_proxy_url` is external; all builders take it
as the parameter `encode : baseUrl → queryParams → encryptFlag → url`. -/

/-- `query_params.pop("has_encrypted", "false").lower() == "true"` (line 88),
the value part. -/
def masterHasEnc (qp : List (String × String)) : Bool :=
  (lookupD qp "has_encrypted" "false").toLower == "true"

/-- The query parameters after the `pop` of line 88. -/
def masterParams (qp : List (String × String)) : List (String × String) :=
  eraseKey qp "has_encrypted"

/-- The per-profile parameter update of line 98: `profile_id`, `key_id`
(`key_id or ""`), `key` (`key or ""`).  The dict is mutated across loop
iterations in the source, but the three updated keys are identical each time,
so every iteration observes exactly this fresh value. -/
def playlistProxyParams (qp : List (String × String)) (keyId key : Option String)
    (p : Profile) : List (String × String) :=
  insertD (insertD (insertD (masterParams qp) "profile_id" p.id)
    "key_id" (keyId.getD "")) "key" (key.getD "")

/-- The playlist proxy URL built for one profile (lines 98–103). -/
def masterMkUrl (encode : String → List (String × String) → Bool → String)
    (qp : List (String × String)) (plUrl : String) (keyId key : Option String)
    (p : Profile) : String :=
  encode plUrl (playlistProxyParams qp keyId key p) (masterHasEnc qp)

/-- `"video" in profile["mimeType"]` (line 105). -/
def isVideoClass (p : Profile) : Bool := strContainsSub p.mimeType "video"

/-- The `elif` of line 107: audio iff not classified video and
`"audio" in profile["mimeType"]`. -/
def isAudioClass (p : Profile) : Bool :=
  !isVideoClass p && strContainsSub p.mimeType "audio"

/-- One iteration of the classification loop (lines 96–108): insert into the
`video_profiles` dict, else the `audio_profiles` dict, else drop. -/
def classifyStep (mkUrl : Profile → String)
    (acc : List (String × (Profile × String)) × List (String × (Profile × String)))
    (p : Profile) :
    List (String × (Profile × String)) × List (String × (Profile × String)) :=
  if isVideoClass p then (insertD acc.1 p.id (p, mkUrl p), acc.2)
  else if strContainsSub p.mimeType "audio" then (acc.1, insertD acc.2 p.id (p, mkUrl p))
  else acc

/-- The two insertion-ordered dicts `video_profiles`, `audio_profiles`. -/
def classifyProfiles (mkUrl : Profile → String) (ps : List Profile) :
    List (String × (Profile × String)) × List (String × (Profile × String)) :=
  ps.foldl (classifyStep mkUrl) ([], [])

/-- `audio_profiles.values()` with the proxy URLs, in dict order. -/
def masterAudioPairs (encode : String → List (String × String) → Bool → String)
    (m : Manifest) (qp : List (String × String)) (plUrl : String)
    (keyId key : Option String) : List (Profile × String) :=
  ((classifyProfiles (masterMkUrl encode qp plUrl keyId key) m.profiles).2).map Prod.snd

/-- `video_profiles.values()` with the proxy URLs, in dict order. -/
def masterVideoPairs (encode : String → List (String × String) → Bool → String)
    (m : Manifest) (qp : List (String × String)) (plUrl : String)
    (keyId key : Option String) : List (Profile × String) :=
  ((classifyProfiles (masterMkUrl encode qp plUrl keyId key) m.profiles).1).map Prod.snd

/-- The audio loop of lines 111–115: one `#EXT-X-MEDIA` line per audio
profile; the flag argument carries `i == 0` of the `enumerate`, so the first
call passes `true` and all recursive calls pass `false`. -/
def audioMediaLines (isFirst : Bool) : List (Profile × String) → List HlsLine
  | [] => []
  | (p, u) :: rest =>
      .media p.id (p.lang.getD "und") u isFirst :: audioMediaLines false rest

/-- One iteration of the video loop (lines 118–123): the `#EXT-X-STREAM-INF`
line followed by the playlist URL line.  A missing field raises `KeyError` in
the source (f-string dictionary lookups), which aborts the whole build:
`.error`. -/
def profileStreamInf (withAudio : Bool) (p : Profile) (u : String) :
    Except Unit (List HlsLine) :=
  match p.bandwidth, p.width, p.height, p.codecs, p.frameRate with
  | some bw, some w, some h, some cd, some fr =>
      .ok [.streamInf bw w h cd fr withAudio, .url u]
  | _, _, _, _, _ => .error ()

/-- The video loop of lines 118–123 over all video profiles. -/
def videoStreamLines (withAudio : Bool) : List (Profile × String) → Except Unit (List HlsLine)
  | [] => .ok []
  | (p, u) :: rest =>
      match profileStreamInf withAudio p u with
      | .error e => .error e
      | .ok two => (videoStreamLines withAudio rest).map (fun ls => two ++ ls)

/-- `build_hls` as a structured line list: header, audio lines, video lines.
The `AUDIO="audio"` attribute is attached iff the audio dict is non-empty. -/
def build_hls_lines (encode : String → List (String × String) → Bool → String)
    (m : Manifest) (qp : List (String × String)) (plUrl : String)
    (keyId key : Option String) : Except Unit (List HlsLine) :=
  match videoStreamLines (!(masterAudioPairs encode m qp plUrl keyId key).isEmpty)
      (masterVideoPairs encode m qp plUrl keyId key) with
  | .error e => .error e
  | .ok vls =>
      .ok ([.extm3u, .version] ++
        audioMediaLines true (masterAudioPairs encode m qp plUrl keyId key) ++ vls)

/-- `build_hls`: the final `"\n".join(hls)` over the rendered lines, reading
the query parameters and the resolved playlist endpoint from the request. -/
def build_hls (encode : String → List (String × String) → Bool → String)
    (m : Manifest) (ctx : ReqCtx) (keyId key : Option String) : Except Unit String :=
  (build_hls_lines encode m ctx.queryParams ctx.playlistUrl keyId key).map
    (fun ls => String.intercalate "\n" (ls.map renderLine))

/-! ### Media playlist builder (`build_hls_playlist`, lines 128–202) -/

/-- The query parameters after the three pops of lines 180–182
(`profile_id`, `d`, `has_encrypted`). -/
def mediaBaseParams (qp : List (String × String)) : List (String × String) :=
  eraseKey (eraseKey (eraseKey qp "profile_id") "d") "has_encrypted"

/-- The `has_encrypted` flag popped on line 182 (read from the dict after the
first two pops, which do not touch this key). -/
def mediaHasEnc (qp : List (String × String)) : Bool :=
  (lookupD (eraseKey (eraseKey qp "profile_id") "d") "has_encrypted" "false").toLower == "true"

/-- The per-segment parameter update of lines 186–188: `init_url`,
`segment_url`, `mime_type`.  As in the master builder, the in-place mutation
across segments always updates the same three keys, so each segment observes
exactly this fresh value. -/
def segmentProxyParams (qp : List (String × String)) (p : Profile) (s : Segment) :
    List (String × String) :=
  insertD (insertD (insertD (mediaBaseParams qp) "init_url" p.initUrl)
    "segment_url" s.media) "mime_type" p.mimeType

/-- The segment loop of lines 184–196: per segment an `#EXTINF` line (a
raising lookup of `segment["extinf"]`: missing `extinf` aborts the build)
and the segment proxy URL. -/
def segmentLines (encode : String → List (String × String) → Bool → String)
    (qp : List (String × String)) (segUrl : String) (p : Profile) :
    List Segment → Except Unit (List HlsLine)
  | [] => .ok []
  | s :: ss =>
      match s.extinf with
      | none => .error ()
      | some e =>
          (segmentLines encode qp segUrl p ss).map
            (fun rest =>
              .extinf e ::
                .url (encode segUrl (segmentProxyParams qp p s) (mediaHasEnc qp)) :: rest)

/-- The header tags of lines 165–175, emitted only when `index == 0`:
target duration, media sequence (from the first segment), playlist type. -/
def profileHeader (m : Manifest) (p : Profile) (first : Segment) : List HlsLine :=
  [.targetDur (targetDuration p.segments),
   .mediaSeq (deriveSequence m.isLive p.segmentTemplateStartNumber first),
   .playlistType m.isLive]

/-- The warning text of line 142. -/
def noSegWarning (p : Profile) : String := "No segments found for profile " ++ p.id

/-- The profile loop of lines 139–196, carrying the `enumerate` index.  A
profile with no segments logs a warning and is skipped (`continue`); the
header tags are tied to `index == 0`, not to the first non-skipped profile. -/
def playlistLoop (encode : String → List (String × String) → Bool → String)
    (m : Manifest) (qp : List (String × String)) (segUrl : String) :
    Nat → List Profile → Except Unit (List HlsLine × List String)
  | _, [] => .ok ([], [])
  | idx, p :: ps =>
      match p.segments with
      | [] =>
          (playlistLoop encode m qp segUrl (idx + 1) ps).map
            (fun r => (r.1, noSegWarning p :: r.2))
      | first :: _ =>
          match segmentLines encode qp segUrl p p.segments with
          | .error e => .error e
          | .ok body =>
              (playlistLoop encode m qp segUrl (idx + 1) ps).map
                (fun r =>
                  ((if idx = 0 then profileHeader m p first else []) ++ body ++ r.1, r.2))

/-- `build_hls_playlist`: header pair, the profile loop from index 0,
`#EXT-X-ENDLIST` for VOD; alongside the list of logged warnings. -/
def build_hls_playlist (encode : String → List (String × String) → Bool → String)
    (m : Manifest) (profiles : List Profile) (ctx : ReqCtx) :
    Except Unit (List HlsLine × List String) :=
  (playlistLoop encode m ctx.queryParams ctx.segmentUrl 0 profiles).map
    (fun r => ([.extm3u, .version] ++ r.1 ++ (if m.isLive then [] else [.endList]), r.2))

/-- The three header tags whose presence claims C1 discusses. -/
def isSeqHeaderTag : HlsLine → Bool
  | .targetDur _ => true
  | .mediaSeq _ => true
  | .playlistType _ => true
  | _ => false

/-- An `#EXT-X-MEDIA` line. -/
def isMediaLine : HlsLine → Bool
  | .media _ _ _ _ => true
  | _ => false

/-- An `#EXT-X-MEDIA` line carrying `DEFAULT=YES,AUTOSELECT=YES`. -/
def isDefaultYesMediaLine : HlsLine → Bool
  | .media _ _ _ d => d
  | _ => false

/-- The data-model invariant that profile ids are unique within a manifest
(spec §3); the dict-keyed grouping of the master builder relies on it. -/
def uniqueIds (m : Manifest) : Prop :=
  List.Pairwise (fun a b : Profile => a.id ≠ b.id) m.profiles

/-! ### Concrete values for counterexamples and witnesses -/

/-- A concrete segment. -/
def cSeg1 : Segment :=
  { extinf := some 4, media := "seg1.m4s", number := some 1,
    time := none, durationMpdTimescale := none }

/-- A fully populated video profile with no segments. -/
def cEmptyProfile : Profile :=
  { id := "a", mimeType := "video/mp4", bandwidth := some 100, width := some 640,
    height := some 360, codecs := some "avc1", frameRate := some "30", lang := none,
    initUrl := "init-a", segments := [], segmentTemplateStartNumber := none }

/-- A fully populated video profile with one segment. -/
def cGoodProfile : Profile :=
  { id := "b", mimeType := "video/mp4", bandwidth := some 200, width := some 640,
    height := some 360, codecs := some "avc1", frameRate := some "30", lang := none,
    initUrl := "init-b", segments := [cSeg1], segmentTemplateStartNumber := none }

/-- A video profile missing its `bandwidth` entry (malformed for the
`EXT-X-STREAM-INF` tag). -/
def cMalformedProfile : Profile :=
  { id := "m", mimeType := "video/mp4", bandwidth := none, width := some 640,
    height := some 360, codecs := some "avc1", frameRate := some "30", lang := none,
    initUrl := "init-m", segments := [cSeg1], segmentTemplateStartNumber := none }

/-- An audio profile. -/
def cAudioProfile : Profile :=
  { id := "au", mimeType := "audio/mp4", bandwidth := some 64, width := none,
    height := none, codecs := some "mp4a", frameRate := none, lang := some "en",
    initUrl := "init-au", segments := [cSeg1], segmentTemplateStartNumber := none }

/-- A profile whose mime type contains both `"video"` and `"audio"`. -/
def cMixedProfile : Profile :=
  { id := "x", mimeType := "video-audio/mp4", bandwidth := some 5, width := some 1,
    height := some 1, codecs := some "c", frameRate := some "30", lang := some "en",
    initUrl := "init-x", segments := [cSeg1], segmentTemplateStartNumber := none }

/-- A trivial deterministic stand-in for the external URL codec. -/
def cEnc : String → List (String × String) → Bool → String := fun u _ _ => u

/-- A concrete request context. -/
def cCtx : ReqCtx := { queryParams := [], playlistUrl := "PL", segmentUrl := "SEG" }

/-! ### Claims C2, C3, C4, C5 -/

/-- Claim C2: with non-empty `keyId` and `key`, segment delivery is exactly
one invocation of the external decryptor on `(initBytes, segmentBytes, keyId,
key)`, returned unmodified — the result equals the decryptor's result for
every decryptor, so decryptor failures propagate and no concatenation ever
happens on this path. -/
theorem process_segment_drm_is_decrypt {ε : Type}
    (decrypt : List Nat → List Nat → String → String → Except ε (List Nat))
    (init_content segment_content : List Nat) (mimetype : String)
    (ki k : String) (hki : ki ≠ "") (hk : k ≠ "") :
    process_segment decrypt init_content segment_content mimetype (some ki) (some k) =
      decrypt init_content segment_content ki k := by
  simp [process_segment, truthyStr, hki, hk]

theorem process_segment_drm_is_decrypt_witness :
    process_segment (fun i s _ _ => .ok (s ++ i) : _ → _ → _ → _ → Except Unit _)
      [1, 2] [3] "video/mp4" (some "kid") (some "k") = .ok [3, 1, 2] :=
  (process_segment_drm_is_decrypt _ [1, 2] [3] "video/mp4" "kid" "k"
    (by decide) (by decide)).trans rfl

/-- Claim C3: when the first segment carries `time` and a positive
`durationMpdTimescale` and the start-number heuristic does not fire, the
derived sequence is the floor quotient, reduced `mod 100000` exactly when the
manifest is live and the quotient exceeds 100000; in particular
`time = 20000000, durationMpdTimescale = 1000000, isLive = false` gives `20`,
and a live quotient of `150000` gives `50000`. -/
theorem deriveSequence_time_branch (isLive : Bool) (sn : Option Int) (first : Segment)
    (t d : Int) (ht : first.time = some t) (hd : first.durationMpdTimescale = some d)
    (hdpos : 0 < d) (hsn : truthyGe1000 sn = false) :
    deriveSequence isLive sn first =
      (if isLive = true ∧ 100000 < Int.fdiv t d
        then Int.fdiv t d % 100000 else Int.fdiv t d) ∧
    deriveSequence false none
      { extinf := none, media := "", number := none,
        time := some 20000000, durationMpdTimescale := some 1000000 } = 20 ∧
    deriveSequence true none
      { extinf := none, media := "", number := none,
        time := some 150000, durationMpdTimescale := some 1 } = 50000 := by
  refine ⟨?_, by decide, by decide⟩
  have happ : timeDurApplies first = true := by
    simp [timeDurApplies, durTruthyPos, ht, hd, hdpos, hdpos.ne']
  simp only [deriveSequence, hsn, happ, ht, hd, Option.getD_some, if_false,
    Bool.false_eq_true, if_true]
  by_cases hl : isLive = true ∧ 100000 < Int.fdiv t d
  · simp [hl.1, hl.2, hl]
  · rcases Decidable.not_and_iff_or_not.mp hl with h | h
    · simp [Bool.eq_false_iff.mpr h, h]
    · simp [h]

theorem deriveSequence_time_branch_witness :
    0 < (1000000 : Int) ∧
    deriveSequence false none
      { extinf := none, media := "", number := none,
        time := some 20000000, durationMpdTimescale := some 1000000 } = 20 :=
  ⟨by decide,
    ((deriveSequence_time_branch false none
      { extinf := none, media := "", number := none,
        time := some 20000000, durationMpdTimescale := some 1000000 }
      20000000 1000000 rfl rfl (by decide) (by decide)).1).trans (by decide)⟩

/-- Claim C4: (1) with `segmentTemplateStartNumber = n ≥ 1000` the derived
sequence is the first segment's `number` when present, else `n`; (2) when the
start-number heuristic does not fire and the first segment has no applicable
`time`/`durationMpdTimescale` pair, the derived sequence is the first
segment's `number` when present, defaulting to `1`. -/
theorem deriveSequence_number_branches :
    (∀ (isLive : Bool) (n : Int) (first : Segment), 1000 ≤ n →
      deriveSequence isLive (some n) first = first.number.getD n) ∧
    (∀ (isLive : Bool) (sn : Option Int) (first : Segment),
      truthyGe1000 sn = false → timeDurApplies first = false →
      deriveSequence isLive sn first = first.number.getD 1) := by
  constructor
  · intro isLive n first hn
    have hne : n ≠ 0 := by omega
    simp [deriveSequence, truthyGe1000, hn, hne]
  · intro isLive sn first hsn htd
    simp [deriveSequence, hsn, htd]

theorem deriveSequence_number_branches_witness :
    deriveSequence false (some 1500)
      { extinf := none, media := "", number := some 7,
        time := none, durationMpdTimescale := none } = 7 ∧
    deriveSequence true none
      { extinf := none, media := "", number := none,
        time := none, durationMpdTimescale := none } = 1 :=
  ⟨(deriveSequence_number_branches.1 false 1500
      { extinf := none, media := "", number := some 7,
        time := none, durationMpdTimescale := none } (by decide)).trans (by decide),
   (deriveSequence_number_branches.2 true none
      { extinf := none, media := "", number := none,
        time := none, durationMpdTimescale := none } (by decide) (by decide)).trans
      (by decide)⟩

/-- Claim C5: with `keyId` or `key` absent or empty, segment delivery returns
exactly the byte concatenation `initBytes ++ segmentBytes`, for any contents
including empty ones. -/
theorem process_segment_concat {ε : Type}
    (decrypt : List Nat → List Nat → String → String → Except ε (List Nat))
    (init_content segment_content : List Nat) (mimetype : String)
    (key_id key : Option String)
    (h : key_id = none ∨ key_id = some "" ∨ key = none ∨ key = some "") :
    process_segment decrypt init_content segment_content mimetype key_id key =
      .ok (init_content ++ segment_content) := by
  rcases h with h | h | h | h <;>
    simp [process_segment, truthyStr, h]

theorem process_segment_concat_witness :
    process_segment (fun i s _ _ => .ok (s ++ i) : _ → _ → _ → _ → Except Unit _)
      [9] [] "audio/mp4" (some "") (some "k") = .ok [9] :=
  (process_segment_concat _ [9] [] "audio/mp4" (some "") (some "k")
    (Or.inr (Or.inl rfl))).trans rfl

/-! ### Claim C9 -/

/-- Claim C9: the master playlist builder is a deterministic pure function of
the manifest, the request's query parameter map and resolved playlist
endpoint, the DRM key material, and the (assumed deterministic) external URL
codec: two request contexts agreeing on those inputs produce byte-identical
output. -/
theorem build_hls_deterministic (encode : String → List (String × String) → Bool → String)
    (m : Manifest) (keyId key : Option String) (ctx₁ ctx₂ : ReqCtx)
    (hq : ctx₁.queryParams = ctx₂.queryParams)
    (hp : ctx₁.playlistUrl = ctx₂.playlistUrl) :
    build_hls encode m ctx₁ keyId key = build_hls encode m ctx₂ keyId key := by
  unfold build_hls
  rw [hq, hp]

theorem build_hls_deterministic_witness :
    build_hls (fun u _ _ => u)
      { isLive := false, profiles := [] }
      { queryParams := [("d", "x")], playlistUrl := "PL", segmentUrl := "S1" }
      none none =
    build_hls (fun u _ _ => u)
      { isLive := false, profiles := [] }
      { queryParams := [("d", "x")], playlistUrl := "PL", segmentUrl := "S2" }
      none none :=
  build_hls_deterministic (fun u _ _ => u) { isLive := false, profiles := [] }
    none none _ _ rfl rfl

/-! ### Helper lemmas on the media playlist loop -/

theorem exceptMap_ok {ε α β : Type} {f : α → β} {e : Except ε α} {b : β}
    (h : e.map f = .ok b) : ∃ a, e = .ok a ∧ b = f a := by
  cases e with
  | error err => simp [Except.map] at h
  | ok a => exact ⟨a, rfl, by simpa [Except.map] using h.symm⟩

theorem segmentLines_no_seq_tags
    (encode : String → List (String × String) → Bool → String)
    (qp : List (String × String)) (segUrl : String) (p : Profile) :
    ∀ (ss : List Segment) (ls : List HlsLine),
      segmentLines encode qp segUrl p ss = .ok ls →
      ∀ l ∈ ls, isSeqHeaderTag l = false := by
  intro ss
  induction ss with
  | nil =>
      intro ls h l hl
      simp only [segmentLines, Except.ok.injEq] at h
      subst h
      simp at hl
  | cons s ss ih =>
      intro ls h l hl
      simp only [segmentLines] at h
      cases hx : s.extinf with
      | none => rw [hx] at h; exact absurd h (by simp)
      | some e =>
          rw [hx] at h
          obtain ⟨rest, hrest, hb⟩ := exceptMap_ok h
          subst hb
          simp only [List.mem_cons] at hl
          rcases hl with rfl | rfl | hl
          · rfl
          · rfl
          · exact ih rest hrest l hl

theorem playlistLoop_no_seq_tags
    (encode : String → List (String × String) → Bool → String)
    (m : Manifest) (qp : List (String × String)) (segUrl : String) :
    ∀ (ps : List Profile) (idx : Nat), idx ≠ 0 →
      ∀ r, playlistLoop encode m qp segUrl idx ps = .ok r →
        ∀ l ∈ r.1, isSeqHeaderTag l = false := by
  intro ps
  induction ps with
  | nil =>
      intro idx _ r h l hl
      simp only [playlistLoop, Except.ok.injEq] at h
      subst h
      simp at hl
  | cons p ps ih =>
      intro idx hidx r h l hl
      simp only [playlistLoop] at h
      cases hseg : p.segments with
      | nil =>
          rw [hseg] at h
          obtain ⟨r1, hr1, hb⟩ := exceptMap_ok h
          subst hb
          exact ih (idx + 1) (Nat.succ_ne_zero idx) r1 hr1 l hl
      | cons first ss =>
          rw [hseg] at h
          cases hsl : segmentLines encode qp segUrl p (first :: ss) with
          | error e => rw [hsl] at h; exact absurd h (by simp)
          | ok body =>
              rw [hsl] at h
              obtain ⟨r1, hr1, hb⟩ := exceptMap_ok h
              subst hb
              simp only [if_neg hidx, List.nil_append, List.mem_append] at hl
              rcases hl with hl | hl
              · exact segmentLines_no_seq_tags encode qp segUrl p (first :: ss) body hsl l hl
              · exact ih (idx + 1) (Nat.succ_ne_zero idx) r1 hr1 l hl

/-! ### Claim C1 (corrected) -/

/-- Claim C1 counterexample: a first profile with no segments followed by a
profile with one segment.  The build succeeds, the empty profile is skipped,
but the emitted playlist contains no `#EXT-X-TARGETDURATION`,
`#EXT-X-MEDIA-SEQUENCE`, or `#EXT-X-PLAYLIST-TYPE` line at all — the tags
are not derived from the later non-empty profile, contradicting the claim. -/
theorem first_profile_empty_cex :
    build_hls_playlist cEnc { isLive := false, profiles := [cEmptyProfile, cGoodProfile] }
        [cEmptyProfile, cGoodProfile] cCtx =
      .ok ([HlsLine.extm3u, HlsLine.version, HlsLine.extinf 4, HlsLine.url "SEG",
            HlsLine.endList],
           ["No segments found for profile a"]) ∧
    [HlsLine.extm3u, HlsLine.version, HlsLine.extinf 4, HlsLine.url "SEG",
      HlsLine.endList].filter isSeqHeaderTag = [] ∧
    cEmptyProfile.segments = [] ∧ cGoodProfile.segments = [cSeg1] :=
  ⟨rfl, rfl, rfl, rfl⟩

/-- Claim C1 amended: the header tags are emitted only when the profile at
index 0 of the input list has segments; when the first profile has no
segments it is skipped, and no `#EXT-X-TARGETDURATION`,
`#EXT-X-MEDIA-SEQUENCE`, or `#EXT-X-PLAYLIST-TYPE` tag is emitted at all,
even when a later profile does have segments. -/
theorem first_profile_empty_no_seq_tags
    (encode : String → List (String × String) → Bool → String)
    (m : Manifest) (ctx : ReqCtx) (p : Profile) (rest : List Profile)
    (r : List HlsLine × List String)
    (hp : p.segments = [])
    (h : build_hls_playlist encode m (p :: rest) ctx = .ok r) :
    ∀ l ∈ r.1, isSeqHeaderTag l = false := by
  intro l hl
  unfold build_hls_playlist at h
  obtain ⟨r0, hr0, hb⟩ := exceptMap_ok h
  subst hb
  simp only [playlistLoop, hp] at hr0
  obtain ⟨r1, hr1, hb0⟩ := exceptMap_ok hr0
  subst hb0
  simp only [List.mem_append, List.mem_cons, List.not_mem_nil, or_false] at hl
  rcases hl with ((rfl | rfl) | hl) | hl
  · rfl
  · rfl
  · exact playlistLoop_no_seq_tags encode m ctx.queryParams ctx.segmentUrl rest 1
      one_ne_zero r1 hr1 l hl
  · cases hlive : m.isLive with
    | false =>
        rw [hlive] at hl
        simp only [Bool.false_eq_true, if_false, List.mem_singleton] at hl
        subst hl; rfl
    | true =>
        rw [hlive] at hl
        simp at hl

theorem first_profile_empty_no_seq_tags_witness :
    cEmptyProfile.segments = [] ∧
    ∀ l ∈ [HlsLine.extm3u, HlsLine.version, HlsLine.extinf 4, HlsLine.url "SEG",
        HlsLine.endList], isSeqHeaderTag l = false :=
  ⟨rfl,
    first_profile_empty_no_seq_tags cEnc
      { isLive := false, profiles := [cEmptyProfile, cGoodProfile] } cCtx
      cEmptyProfile [cGoodProfile]
      ([HlsLine.extm3u, HlsLine.version, HlsLine.extinf 4, HlsLine.url "SEG",
        HlsLine.endList], ["No segments found for profile a"])
      rfl rfl⟩

/-! ### Claim C8 -/

theorem playlistLoop_replace_empty
    (encode : String → List (String × String) → Bool → String)
    (m : Manifest) (qp : List (String × String)) (segUrl : String) (p q : Profile)
    (hp : p.segments = []) (hq : q.segments = []) (hid : q.id = p.id) :
    ∀ (ps₁ ps₂ : List Profile) (idx : Nat),
      playlistLoop encode m qp segUrl idx (ps₁ ++ p :: ps₂) =
        playlistLoop encode m qp segUrl idx (ps₁ ++ q :: ps₂) := by
  intro ps₁
  induction ps₁ with
  | nil =>
      intro ps₂ idx
      simp only [List.nil_append, playlistLoop, hp, hq, noSegWarning, hid]
  | cons hd t ih =>
      intro ps₂ idx
      simp only [List.cons_append, playlistLoop, List.append_eq]
      rw [ih ps₂ (idx + 1)]

theorem playlistLoop_warning_mem
    (encode : String → List (String × String) → Bool → String)
    (m : Manifest) (qp : List (String × String)) (segUrl : String) (p : Profile)
    (hp : p.segments = []) :
    ∀ (ps₁ ps₂ : List Profile) (idx : Nat) (r : List HlsLine × List String),
      playlistLoop encode m qp segUrl idx (ps₁ ++ p :: ps₂) = .ok r →
      noSegWarning p ∈ r.2 := by
  intro ps₁
  induction ps₁ with
  | nil =>
      intro ps₂ idx r h
      simp only [List.nil_append, playlistLoop, hp] at h
      obtain ⟨r1, _, hb⟩ := exceptMap_ok h
      subst hb
      exact List.mem_cons_self _ _
  | cons hd t ih =>
      intro ps₂ idx r h
      simp only [List.cons_append, playlistLoop, List.append_eq] at h
      cases hseg : hd.segments with
      | nil =>
          rw [hseg] at h
          obtain ⟨r1, hr1, hb⟩ := exceptMap_ok h
          subst hb
          exact List.mem_cons_of_mem _ (ih ps₂ (idx + 1) r1 hr1)
      | cons s ss =>
          rw [hseg] at h
          cases hsl : segmentLines encode qp segUrl hd (s :: ss) with
          | error e => rw [hsl] at h; exact absurd h (by simp)
          | ok body =>
              rw [hsl] at h
              obtain ⟨r1, hr1, hb⟩ := exceptMap_ok h
              subst hb
              exact ih ps₂ (idx + 1) r1 hr1

theorem playlistLoop_all_empty
    (encode : String → List (String × String) → Bool → String)
    (m : Manifest) (qp : List (String × String)) (segUrl : String) :
    ∀ (ps : List Profile) (idx : Nat), (∀ x ∈ ps, x.segments = []) →
      playlistLoop encode m qp segUrl idx ps = .ok ([], ps.map noSegWarning) := by
  intro ps
  induction ps with
  | nil => intro idx _; rfl
  | cons p t ih =>
      intro idx hall
      have hp : p.segments = [] := hall p (List.mem_cons_self _ _)
      rw [playlistLoop, hp]
      rw [ih (idx + 1) (fun x hx => hall x (List.mem_cons_of_mem _ hx))]
      rfl

/-- Claim C8: a profile with an empty segment list is skipped: (1) its other
data contributes nothing — replacing it by any other empty-segment profile
with the same id leaves the build unchanged; (2) on a successful build the
`"No segments found for profile <id>"` warning is logged for it; (3) empty
profiles never fail the build: a list of only empty profiles still yields a
valid (header-only) playlist, skipping them all. -/
theorem empty_profile_skipped
    (encode : String → List (String × String) → Bool → String)
    (m : Manifest) (ctx : ReqCtx) (ps₁ ps₂ : List Profile) (p q : Profile)
    (hp : p.segments = []) :
    (q.segments = [] → q.id = p.id →
      build_hls_playlist encode m (ps₁ ++ p :: ps₂) ctx =
        build_hls_playlist encode m (ps₁ ++ q :: ps₂) ctx) ∧
    (∀ r, build_hls_playlist encode m (ps₁ ++ p :: ps₂) ctx = .ok r →
      noSegWarning p ∈ r.2) ∧
    ((∀ x ∈ ps₁ ++ p :: ps₂, x.segments = []) →
      build_hls_playlist encode m (ps₁ ++ p :: ps₂) ctx =
        .ok ([HlsLine.extm3u, HlsLine.version] ++
              (if m.isLive then [] else [HlsLine.endList]),
             (ps₁ ++ p :: ps₂).map noSegWarning)) := by
  refine ⟨?_, ?_, ?_⟩
  · intro hq hid
    unfold build_hls_playlist
    rw [playlistLoop_replace_empty encode m ctx.queryParams ctx.segmentUrl p q hp hq hid
      ps₁ ps₂ 0]
  · intro r h
    unfold build_hls_playlist at h
    obtain ⟨r0, hr0, hb⟩ := exceptMap_ok h
    subst hb
    exact playlistLoop_warning_mem encode m ctx.queryParams ctx.segmentUrl p hp
      ps₁ ps₂ 0 r0 hr0
  · intro hall
    unfold build_hls_playlist
    rw [playlistLoop_all_empty encode m ctx.queryParams ctx.segmentUrl
      (ps₁ ++ p :: ps₂) 0 hall]
    simp [Except.map]

theorem empty_profile_skipped_witness :
    noSegWarning cEmptyProfile ∈ ["No segments found for profile a"] :=
  (empty_profile_skipped cEnc { isLive := false, profiles := [cEmptyProfile, cGoodProfile] }
      cCtx [] [cGoodProfile] cEmptyProfile cEmptyProfile rfl).2.1
    ([HlsLine.extm3u, HlsLine.version, HlsLine.extinf 4, HlsLine.url "SEG",
      HlsLine.endList], ["No segments found for profile a"]) rfl

/-! ### Helper lemmas on the master playlist builder -/

theorem insertD_fresh {α : Type} (d : List (String × α)) (k : String) (v : α)
    (h : ∀ kv ∈ d, kv.1 ≠ k) : insertD d k v = d ++ [(k, v)] := by
  have hc : d.any (fun kv => kv.1 == k) = false := by
    rw [List.any_eq_false]
    intro kv hkv
    simpa using h kv hkv
  simp [insertD, hc]

theorem insertD_mem {α : Type} {d : List (String × α)} {k : String} {v : α}
    {kv : String × α} (h : kv ∈ insertD d k v) : kv ∈ d ∨ kv = (k, v) := by
  unfold insertD at h
  by_cases hc : d.any (fun x => x.1 == k) = true
  · rw [if_pos hc] at h
    obtain ⟨x, hx, hfx⟩ := List.mem_map.mp h
    by_cases hk : (x.1 == k) = true
    · right; rw [if_pos hk] at hfx; exact hfx.symm
    · left; rw [if_neg hk] at hfx; exact hfx ▸ hx
  · rw [if_neg hc] at h
    rcases List.mem_append.mp h with h | h
    · exact Or.inl h
    · right; simpa using h

/-- Every value ever inserted into the `audio_profiles` dict came through the
`elif` branch, so it is not video-classified. -/
theorem classify_audio_not_video (mkUrl : Profile → String) :
    ∀ (ps : List Profile) (vd ad : List (String × (Profile × String))),
      (∀ kv ∈ ad, isVideoClass kv.2.1 = false) →
      ∀ kv ∈ (ps.foldl (classifyStep mkUrl) (vd, ad)).2, isVideoClass kv.2.1 = false := by
  intro ps
  induction ps with
  | nil => intro vd ad had kv hkv; exact had kv hkv
  | cons p t ih =>
      intro vd ad had kv hkv
      rw [List.foldl_cons] at hkv
      cases hv : isVideoClass p with
      | true =>
          have hstep : classifyStep mkUrl (vd, ad) p = (insertD vd p.id (p, mkUrl p), ad) := by
            simp [classifyStep, hv]
          rw [hstep] at hkv
          exact ih (insertD vd p.id (p, mkUrl p)) ad had kv hkv
      | false =>
          cases ha : strContainsSub p.mimeType "audio" with
          | true =>
              have hstep : classifyStep mkUrl (vd, ad) p =
                  (vd, insertD ad p.id (p, mkUrl p)) := by
                simp [classifyStep, hv, ha]
              rw [hstep] at hkv
              refine ih vd (insertD ad p.id (p, mkUrl p)) ?_ kv hkv
              intro kv' hkv'
              rcases insertD_mem hkv' with h | h
              · exact had kv' h
              · rw [h]; exact hv
          | false =>
              have hstep : classifyStep mkUrl (vd, ad) p = (vd, ad) := by
                simp [classifyStep, hv, ha]
              rw [hstep] at hkv
              exact ih vd ad had kv hkv

/-- Under unique profile ids no dict insertion ever overwrites, so the two
dicts are exactly the filtered profile lists in order. -/
theorem classify_go_unique (mkUrl : Profile → String) :
    ∀ (ps : List Profile) (vd ad : List (String × (Profile × String))),
      List.Pairwise (fun a b : Profile => a.id ≠ b.id) ps →
      (∀ kv ∈ vd, ∀ x ∈ ps, kv.1 ≠ x.id) →
      (∀ kv ∈ ad, ∀ x ∈ ps, kv.1 ≠ x.id) →
      ps.foldl (classifyStep mkUrl) (vd, ad) =
        (vd ++ (ps.filter isVideoClass).map (fun x => (x.id, (x, mkUrl x))),
         ad ++ (ps.filter isAudioClass).map (fun x => (x.id, (x, mkUrl x)))) := by
  intro ps
  induction ps with
  | nil => intro vd ad _ _ _; simp
  | cons p t ih =>
      intro vd ad hpw hv ha
      obtain ⟨hphead, hpwt⟩ := List.pairwise_cons.mp hpw
      rw [List.foldl_cons]
      cases hvid : isVideoClass p with
      | true =>
          have hstep : classifyStep mkUrl (vd, ad) p =
              (vd ++ [(p.id, (p, mkUrl p))], ad) := by
            have hfresh : ∀ kv ∈ vd, kv.1 ≠ p.id :=
              fun kv hkv => hv kv hkv p (List.mem_cons_self _ _)
            simp [classifyStep, hvid, insertD_fresh vd p.id _ hfresh]
          rw [hstep, ih (vd ++ [(p.id, (p, mkUrl p))]) ad hpwt ?_ ?_]
          · have hna : isAudioClass p = false := by simp [isAudioClass, hvid]
            simp [List.filter_cons, hvid, hna, List.append_assoc]
          · intro kv hkv x hx
            rcases List.mem_append.mp hkv with h | h
            · exact hv kv h x (List.mem_cons_of_mem _ hx)
            · have : kv = (p.id, (p, mkUrl p)) := by simpa using h
              rw [this]; exact hphead x hx
          · exact fun kv hkv x hx => ha kv hkv x (List.mem_cons_of_mem _ hx)
      | false =>
          cases haud : strContainsSub p.mimeType "audio" with
          | true =>
              have hstep : classifyStep mkUrl (vd, ad) p =
                  (vd, ad ++ [(p.id, (p, mkUrl p))]) := by
                have hfresh : ∀ kv ∈ ad, kv.1 ≠ p.id :=
                  fun kv hkv => ha kv hkv p (List.mem_cons_self _ _)
                simp [classifyStep, hvid, haud, insertD_fresh ad p.id _ hfresh]
              rw [hstep, ih vd (ad ++ [(p.id, (p, mkUrl p))]) hpwt ?_ ?_]
              · have hya : isAudioClass p = true := by simp [isAudioClass, hvid, haud]
                simp [List.filter_cons, hvid, hya, List.append_assoc]
              · exact fun kv hkv x hx => hv kv hkv x (List.mem_cons_of_mem _ hx)
              · intro kv hkv x hx
                rcases List.mem_append.mp hkv with h | h
                · exact ha kv h x (List.mem_cons_of_mem _ hx)
                · have : kv = (p.id, (p, mkUrl p)) := by simpa using h
                  rw [this]; exact hphead x hx
          | false =>
              have hstep : classifyStep mkUrl (vd, ad) p = (vd, ad) := by
                simp [classifyStep, hvid, haud]
              rw [hstep, ih vd ad hpwt
                (fun kv hkv x hx => hv kv hkv x (List.mem_cons_of_mem _ hx))
                (fun kv hkv x hx => ha kv hkv x (List.mem_cons_of_mem _ hx))]
              have hna : isAudioClass p = false := by simp [isAudioClass, hvid, haud]
              simp [List.filter_cons, hvid, hna]

theorem classifyProfiles_unique (mkUrl : Profile → String) (ps : List Profile)
    (h : List.Pairwise (fun a b : Profile => a.id ≠ b.id) ps) :
    classifyProfiles mkUrl ps =
      ((ps.filter isVideoClass).map (fun x => (x.id, (x, mkUrl x))),
       (ps.filter isAudioClass).map (fun x => (x.id, (x, mkUrl x)))) := by
  unfold classifyProfiles
  simpa using classify_go_unique mkUrl ps [] [] h (by simp) (by simp)

theorem profileStreamInf_ok_inv {withAudio : Bool} {p : Profile} {u : String}
    {two : List HlsLine} (h : profileStreamInf withAudio p u = .ok two) :
    ∃ bw w ht cd fr, p.bandwidth = some bw ∧ p.width = some w ∧ p.height = some ht ∧
      p.codecs = some cd ∧ p.frameRate = some fr ∧
      two = [HlsLine.streamInf bw w ht cd fr withAudio, HlsLine.url u] := by
  unfold profileStreamInf at h
  split at h
  next bw w ht cd fr hbw hw hht hcd hfr =>
    exact ⟨bw, w, ht, cd, fr, hbw, hw, hht, hcd, hfr, (Except.ok.inj h).symm⟩
  next => exact absurd h (by simp)

theorem videoStreamLines_ok_inv (withAudio : Bool) :
    ∀ (vps : List (Profile × String)) (ls : List HlsLine),
      videoStreamLines withAudio vps = .ok ls →
      ∀ pu ∈ vps, ∃ bw w ht cd fr,
        pu.1.bandwidth = some bw ∧ pu.1.width = some w ∧ pu.1.height = some ht ∧
        pu.1.codecs = some cd ∧ pu.1.frameRate = some fr ∧
        HlsLine.streamInf bw w ht cd fr withAudio ∈ ls ∧ HlsLine.url pu.2 ∈ ls := by
  intro vps
  induction vps with
  | nil => intro ls _ pu hpu; simp at hpu
  | cons hd t ih =>
      intro ls h pu hpu
      obtain ⟨p0, u0⟩ := hd
      simp only [videoStreamLines] at h
      cases hps : profileStreamInf withAudio p0 u0 with
      | error e => rw [hps] at h; exact absurd h (by simp)
      | ok two =>
          rw [hps] at h
          obtain ⟨ls', hls', hb⟩ := exceptMap_ok h
          subst hb
          obtain ⟨bw, w, ht, cd, fr, hbw, hw, hht, hcd, hfr, htwo⟩ :=
            profileStreamInf_ok_inv hps
          subst htwo
          rcases List.mem_cons.mp hpu with rfl | hpu
          · exact ⟨bw, w, ht, cd, fr, hbw, hw, hht, hcd, hfr, by simp, by simp⟩
          · obtain ⟨bw', w', ht', cd', fr', h1, h2, h3, h4, h5, h6, h7⟩ :=
              ih ls' hls' pu hpu
            exact ⟨bw', w', ht', cd', fr', h1, h2, h3, h4, h5,
              List.mem_append_right _ h6, List.mem_append_right _ h7⟩

theorem videoStreamLines_not_media (withAudio : Bool) :
    ∀ (vps : List (Profile × String)) (ls : List HlsLine),
      videoStreamLines withAudio vps = .ok ls →
      ∀ l ∈ ls, isMediaLine l = false := by
  intro vps
  induction vps with
  | nil =>
      intro ls h l hl
      simp only [videoStreamLines, Except.ok.injEq] at h
      subst h; simp at hl
  | cons hd t ih =>
      intro ls h l hl
      obtain ⟨p0, u0⟩ := hd
      simp only [videoStreamLines] at h
      cases hps : profileStreamInf withAudio p0 u0 with
      | error e => rw [hps] at h; exact absurd h (by simp)
      | ok two =>
          rw [hps] at h
          obtain ⟨ls', hls', hb⟩ := exceptMap_ok h
          subst hb
          obtain ⟨bw, w, ht, cd, fr, _, _, _, _, _, htwo⟩ := profileStreamInf_ok_inv hps
          subst htwo
          simp only [List.cons_append, List.nil_append, List.mem_cons] at hl
          rcases hl with rfl | rfl | hl
          · rfl
          · rfl
          · exact ih ls' hls' l hl

theorem audioMediaLines_all_media (b : Bool) :
    ∀ aps, ∀ l ∈ audioMediaLines b aps, isMediaLine l = true := by
  intro aps
  induction aps generalizing b with
  | nil => intro l hl; simp [audioMediaLines] at hl
  | cons pu t ih =>
      intro l hl
      obtain ⟨p0, u0⟩ := pu
      simp only [audioMediaLines, List.mem_cons] at hl
      rcases hl with rfl | hl
      · rfl
      · exact ih false l hl

theorem audioMediaLines_rest_no_yes :
    ∀ aps, (audioMediaLines false aps).filter isDefaultYesMediaLine = [] := by
  intro aps
  induction aps with
  | nil => rfl
  | cons pu t ih =>
      obtain ⟨p0, u0⟩ := pu
      simp only [audioMediaLines, List.filter_cons]
      simpa [isDefaultYesMediaLine] using ih

theorem audioMediaLines_mem_inv (b : Bool) :
    ∀ aps, ∀ l ∈ audioMediaLines b aps,
      ∃ q u d, (q, u) ∈ aps ∧ l = HlsLine.media q.id (q.lang.getD "und") u d := by
  intro aps
  induction aps generalizing b with
  | nil => intro l hl; simp [audioMediaLines] at hl
  | cons pu t ih =>
      intro l hl
      obtain ⟨p0, u0⟩ := pu
      simp only [audioMediaLines, List.mem_cons] at hl
      rcases hl with rfl | hl
      · exact ⟨p0, u0, b, List.mem_cons_self _ _, rfl⟩
      · obtain ⟨q, u, d, hq, hd⟩ := ih false l hl
        exact ⟨q, u, d, List.mem_cons_of_mem _ hq, hd⟩

/-- Inversion of a successful master build into its three sections. -/
theorem build_hls_lines_ok_inv
    {encode : String → List (String × String) → Bool → String}
    {m : Manifest} {qp : List (String × String)} {plUrl : String}
    {keyId key : Option String} {ls : List HlsLine}
    (h : build_hls_lines encode m qp plUrl keyId key = .ok ls) :
    ∃ vls, videoStreamLines (!(masterAudioPairs encode m qp plUrl keyId key).isEmpty)
        (masterVideoPairs encode m qp plUrl keyId key) = .ok vls ∧
      ls = [HlsLine.extm3u, HlsLine.version] ++
        audioMediaLines true (masterAudioPairs encode m qp plUrl keyId key) ++ vls := by
  unfold build_hls_lines at h
  cases hvs : videoStreamLines (!(masterAudioPairs encode m qp plUrl keyId key).isEmpty)
      (masterVideoPairs encode m qp plUrl keyId key) with
  | error e => rw [hvs] at h; exact absurd h (by simp)
  | ok vls =>
      rw [hvs] at h
      exact ⟨vls, rfl, (Except.ok.inj h).symm⟩

/-- Unique ids make `Profile.id` injective on the manifest's profiles. -/
theorem id_injOn_of_uniqueIds {m : Manifest} (hu : uniqueIds m) :
    ∀ p ∈ m.profiles, ∀ q ∈ m.profiles, p.id = q.id → p = q := by
  have hn : (m.profiles.map Profile.id).Nodup := List.pairwise_map.mpr hu
  exact fun p hp q hq h => List.inj_on_of_nodup_map hn hp hq h

theorem not_media_not_yes {l : HlsLine} (h : isMediaLine l = false) :
    isDefaultYesMediaLine l = false := by
  cases l <;> simp_all [isMediaLine, isDefaultYesMediaLine]

/-! ### Claim C6 (corrected) -/

/-- Claim C6 counterexample: a manifest holding a video profile with no
`bandwidth` entry next to a fully well-formed video profile.  The master
build fails as a whole (`KeyError` propagates), it does not skip the
malformed profile — while the same well-formed profile alone builds fine. -/
theorem master_malformed_cex :
    build_hls_lines cEnc
        { isLive := false, profiles := [cMalformedProfile, cGoodProfile] } [] "PL"
        none none = .error () ∧
    build_hls_lines cEnc { isLive := false, profiles := [cGoodProfile] } [] "PL"
        none none =
      .ok [HlsLine.extm3u, HlsLine.version,
           HlsLine.streamInf 200 640 360 "avc1" "30" false, HlsLine.url "PL"] :=
  ⟨rfl, rfl⟩

/-- Claim C6 amended: a video-classified profile lacking a field required for
its `EXT-X-STREAM-INF` tag (here `bandwidth`) makes the whole master playlist
build fail; the malformed profile is not skipped and no playlist is returned
for the remaining profiles. -/
theorem master_malformed_video_aborts
    (encode : String → List (String × String) → Bool → String)
    (m : Manifest) (qp : List (String × String)) (plUrl : String)
    (keyId key : Option String) (p : Profile)
    (hmem : p ∈ m.profiles) (hvid : isVideoClass p = true)
    (hbw : p.bandwidth = none) (hu : uniqueIds m) :
    build_hls_lines encode m qp plUrl keyId key = .error () := by
  have hmempair : (p, masterMkUrl encode qp plUrl keyId key p) ∈
      masterVideoPairs encode m qp plUrl keyId key := by
    unfold masterVideoPairs
    rw [classifyProfiles_unique _ _ hu]
    simp only [List.map_map, List.mem_map, Function.comp]
    exact ⟨p, List.mem_filter.mpr ⟨hmem, hvid⟩, rfl⟩
  cases hres : build_hls_lines encode m qp plUrl keyId key with
  | ok ls =>
      exfalso
      obtain ⟨vls, hvs, _⟩ := build_hls_lines_ok_inv hres
      obtain ⟨bw, _, _, _, _, hb, _, _, _, _, _, _⟩ :=
        videoStreamLines_ok_inv _ _ vls hvs
          (p, masterMkUrl encode qp plUrl keyId key p) hmempair
      exact Option.noConfusion (hbw.symm.trans hb)
  | error e => cases e; rfl

theorem master_malformed_video_aborts_witness :
    build_hls_lines cEnc
        { isLive := false, profiles := [cMalformedProfile, cGoodProfile] } [] "PL"
        none none = .error () :=
  master_malformed_video_aborts cEnc
    { isLive := false, profiles := [cMalformedProfile, cGoodProfile] } [] "PL"
    none none cMalformedProfile (List.mem_cons_self _ _) rfl rfl
    (by simp [uniqueIds, cMalformedProfile, cGoodProfile])

/-! ### Claim C7 -/

/-- Claim C7: on a successful master build, the `#EXT-X-MEDIA` lines of the
output are exactly the audio lines generated from the audio dict in insertion
order, with the `DEFAULT=YES,AUTOSELECT=YES` flag on the first and `NO` on
all others; hence there are zero media lines when no audio profile exists and
exactly one `DEFAULT=YES` line when at least one does; under unique profile
ids the audio dict lists precisely the audio-classified profiles in manifest
order, so the `YES` line belongs to the first audio profile. -/
theorem master_audio_default_lines
    (encode : String → List (String × String) → Bool → String)
    (m : Manifest) (qp : List (String × String)) (plUrl : String)
    (keyId key : Option String) (ls : List HlsLine)
    (hok : build_hls_lines encode m qp plUrl keyId key = .ok ls) :
    ls.filter isMediaLine =
      audioMediaLines true (masterAudioPairs encode m qp plUrl keyId key) ∧
    (masterAudioPairs encode m qp plUrl keyId key = [] → ls.filter isMediaLine = []) ∧
    (masterAudioPairs encode m qp plUrl keyId key ≠ [] →
      (ls.filter isDefaultYesMediaLine).length = 1) ∧
    (uniqueIds m →
      (masterAudioPairs encode m qp plUrl keyId key).map Prod.fst =
        m.profiles.filter isAudioClass) := by
  obtain ⟨vls, hvs, hls⟩ := build_hls_lines_ok_inv hok
  subst hls
  have hvm : ∀ l ∈ vls, isMediaLine l = false :=
    videoStreamLines_not_media _ _ vls hvs
  have hvnil : vls.filter isMediaLine = [] :=
    List.filter_eq_nil_iff.mpr (fun a ha => by simp [hvm a ha])
  have haud : (audioMediaLines true (masterAudioPairs encode m qp plUrl keyId key)).filter
      isMediaLine = audioMediaLines true (masterAudioPairs encode m qp plUrl keyId key) :=
    List.filter_eq_self.mpr (fun a ha => audioMediaLines_all_media true _ a ha)
  have hfilter : ([HlsLine.extm3u, HlsLine.version] ++
      audioMediaLines true (masterAudioPairs encode m qp plUrl keyId key) ++
        vls).filter isMediaLine =
      audioMediaLines true (masterAudioPairs encode m qp plUrl keyId key) := by
    rw [List.filter_append, List.filter_append, haud, hvnil]
    simp [isMediaLine]
  refine ⟨hfilter, fun hnil => by rw [hfilter, hnil]; rfl, ?_, ?_⟩
  · intro hne
    cases haps : masterAudioPairs encode m qp plUrl keyId key with
    | nil => exact absurd haps hne
    | cons pu rest =>
        obtain ⟨p0, u0⟩ := pu
        have hvy : vls.filter isDefaultYesMediaLine = [] :=
          List.filter_eq_nil_iff.mpr
            (fun a ha => by simp [not_media_not_yes (hvm a ha)])
        rw [List.filter_append, List.filter_append]
        simp [audioMediaLines, List.filter_cons, isDefaultYesMediaLine, hvy,
          audioMediaLines_rest_no_yes rest]
  · intro hu
    unfold masterAudioPairs
    rw [classifyProfiles_unique _ _ hu]
    simp [List.map_map, Function.comp_def]

theorem master_audio_default_lines_witness :
    ([HlsLine.extm3u, HlsLine.version,
      HlsLine.media "au" "en" "PL" true].filter isDefaultYesMediaLine).length = 1 :=
  (master_audio_default_lines cEnc { isLive := false, profiles := [cAudioProfile] }
      [] "PL" none none
      [HlsLine.extm3u, HlsLine.version, HlsLine.media "au" "en" "PL" true] rfl).2.2.1
    (by decide)

/-! ### Claim C10 -/

/-- Claim C10: a profile whose mime type contains both `"video"` and
`"audio"` is classified into the video group — the `"video"` substring test
runs first — never into the audio group: (1) it is never among the audio
pairs; (2) under unique ids it is among the video pairs with its proxy URL;
(3) on a successful build no `#EXT-X-MEDIA` line carries its id while an
`#EXT-X-STREAM-INF` line built from its fields is present. -/
theorem mixed_mime_video_precedence
    (encode : String → List (String × String) → Bool → String)
    (m : Manifest) (qp : List (String × String)) (plUrl : String)
    (keyId key : Option String) (p : Profile)
    (hmem : p ∈ m.profiles)
    (hv : strContainsSub p.mimeType "video" = true)
    (ha : strContainsSub p.mimeType "audio" = true) :
    (∀ pu ∈ masterAudioPairs encode m qp plUrl keyId key, pu.1 ≠ p) ∧
    (uniqueIds m → (p, masterMkUrl encode qp plUrl keyId key p) ∈
        masterVideoPairs encode m qp plUrl keyId key) ∧
    (uniqueIds m → ∀ ls, build_hls_lines encode m qp plUrl keyId key = .ok ls →
      (∀ lang u d, HlsLine.media p.id lang u d ∉ ls) ∧
      ∃ bw w ht cd fr, p.bandwidth = some bw ∧ p.width = some w ∧
        p.height = some ht ∧ p.codecs = some cd ∧ p.frameRate = some fr ∧
        HlsLine.streamInf bw w ht cd fr
          (!(masterAudioPairs encode m qp plUrl keyId key).isEmpty) ∈ ls) := by
  have hvc : isVideoClass p = true := hv
  have hmempair : uniqueIds m → (p, masterMkUrl encode qp plUrl keyId key p) ∈
      masterVideoPairs encode m qp plUrl keyId key := by
    intro hu
    unfold masterVideoPairs
    rw [classifyProfiles_unique _ _ hu]
    simp only [List.map_map, List.mem_map, Function.comp]
    exact ⟨p, List.mem_filter.mpr ⟨hmem, hvc⟩, rfl⟩
  refine ⟨?_, hmempair, ?_⟩
  · intro pu hpu hpe
    have hnv : isVideoClass pu.1 = false := by
      unfold masterAudioPairs at hpu
      obtain ⟨kv, hkv, hsnd⟩ := List.mem_map.mp hpu
      have hkv2 := classify_audio_not_video (masterMkUrl encode qp plUrl keyId key)
        m.profiles [] [] (by simp) kv hkv
      rw [hsnd] at hkv2
      exact hkv2
    rw [hpe, hvc] at hnv
    exact Bool.noConfusion hnv
  · intro hu ls hok
    obtain ⟨vls, hvs, hls⟩ := build_hls_lines_ok_inv hok
    subst hls
    have haps : masterAudioPairs encode m qp plUrl keyId key =
        (m.profiles.filter isAudioClass).map
          (fun x => (x, masterMkUrl encode qp plUrl keyId key x)) := by
      unfold masterAudioPairs
      rw [classifyProfiles_unique _ _ hu]
      simp [List.map_map, Function.comp]
    constructor
    · intro lang u d hmem'
      rcases List.mem_append.mp hmem' with hmem' | hmem'
      · rcases List.mem_append.mp hmem' with hmem' | hmem'
        · simp at hmem'
        · obtain ⟨q, u', d', hq, heq⟩ := audioMediaLines_mem_inv true _ _ hmem'
          rw [haps] at hq
          obtain ⟨x, hx, hxq⟩ := List.mem_map.mp hq
          injection hxq with hxq1 hxq2
          obtain ⟨hxm, hxa⟩ := List.mem_filter.mp hx
          injection heq with hid hlang huri hd2
          have hpq : p = q := by
            refine id_injOn_of_uniqueIds hu p hmem q ?_ hid
            rw [← hxq1]; exact hxm
          have hac : isAudioClass p = true := by rw [hpq, ← hxq1]; exact hxa
          unfold isAudioClass at hac
          rw [hvc] at hac
          simp at hac
      · have := videoStreamLines_not_media _ _ vls hvs _ hmem'
        exact Bool.noConfusion this
    · obtain ⟨bw, w, ht, cd, fr, h1, h2, h3, h4, h5, h6, _⟩ :=
        videoStreamLines_ok_inv _ _ vls hvs
          (p, masterMkUrl encode qp plUrl keyId key p) (hmempair hu)
      exact ⟨bw, w, ht, cd, fr, h1, h2, h3, h4, h5, List.mem_append_right _ h6⟩

theorem mixed_mime_video_precedence_witness :
    (cMixedProfile, masterMkUrl cEnc [] "PL" none none cMixedProfile) ∈
      masterVideoPairs cEnc { isLive := false, profiles := [cMixedProfile] } [] "PL"
        none none :=
  (mixed_mime_video_precedence cEnc { isLive := false, profiles := [cMixedProfile] }
      [] "PL" none none cMixedProfile (List.mem_cons_self _ _) rfl rfl).2.1
    (by simp [uniqueIds])

end MediaProxy
